import Mathlib

/-!
Verification of the smbus package (Go): a userspace SMBus driver over a
Linux I2C character device.

The embedding is trace-based. The OS (file open, ioctl, file close) is an
external oracle `Env` whose answers may depend on the history of events so
far; every operation of the package is a Lean function taking the oracle
and the trace produced so far, and returning its Go result together with
the extended trace. Machine integers are `Nat` (with `% 256` where the Go
source converts to `byte`); Go slices are `List Nat`; a kernel write into
a caller-supplied buffer is the kernel's output overlaid on the buffer via
`goCopy` (Go's built-in `copy`, which never changes the destination
length); fallible results are `Option GoErr` / `Except GoErr`.
-/

namespace Smbus

/-- The errors the package can produce: the two configuration errors
(`fmt.Errorf("opts is nil")`, `fmt.Errorf("option BackupRestoreRegs is not
supported with OpenFile()")`), the block-size error `errSMBusBlockDataMax`,
and OS errors from open/ioctl/close carried by an abstract numeric code. -/
inductive GoErr where
  | optsNil
  | backupNotSupported
  | blockMax
  | osErr (code : Nat)
deriving DecidableEq

/-- The `i2cCmd` struct handed to the SMBus-transfer ioctl: read/write
flag, command (register) byte, size class, and the contents of the buffer
the `ptr` field points at. -/
structure I2cCmd where
  rw : Nat
  cmd : Nat
  len : Nat
  data : List Nat
deriving DecidableEq

/-- Argument of an ioctl: either a small integer (the slave address) or a
pointer to an `i2cCmd` descriptor. -/
inductive IoctlArg where
  | addr (a : Nat)
  | ptr (c : I2cCmd)
deriving DecidableEq

/-- One ioctl invocation: control code plus argument. -/
structure IoctlCall where
  code : Nat
  arg : IoctlArg
deriving DecidableEq

/-- Externally visible events of a run: an `os.OpenFile` attempt on
`/dev/i2c-<bus>`, an ioctl on the handle, and `f.Close()`. -/
inductive Event where
  | openFile (bus : Int)
  | ioctl (c : IoctlCall)
  | closeFile
deriving DecidableEq

/-- The oracle's answer to one ioctl: an error (`none` = success) and the
bytes the kernel wrote into the caller's buffer. -/
structure IoctlResult where
  err : Option GoErr
  out : List Nat
deriving DecidableEq

/-- The OS oracle. Each answer may depend on the full event history,
which lets a single oracle type model both stateless behaviours and a
stateful bus (e.g. one that echoes writes back on reads). -/
structure Env where
  openFile : List Event → Int → Option GoErr
  ioctl : List Event → IoctlCall → IoctlResult
  closeFile : List Event → Option GoErr

/-- Go's built-in `copy(dst, src)`: the first `min |dst| |src|` elements
of `dst` are overwritten by those of `src`; `dst` keeps its length. -/
def goCopy (dst src : List Nat) : List Nat :=
  src.take (min dst.length src.length) ++ dst.drop (min dst.length src.length)

-- Control codes and size identifiers (source constants).
def i2cSlave : Nat := 0x0703
def i2cSlaveForce : Nat := 0x0706
def i2cFuncs : Nat := 0x0705
def i2cSMBus : Nat := 0x0720
def i2cSMBusWrite : Nat := 0
def i2cSMBusRead : Nat := 1
def i2cSMBusByteData : Nat := 2
def i2cSMBusWordData : Nat := 3
def i2cSMBusBlockData : Nat := 5
def i2cSMBusI2CBlockData : Nat := 8
def i2cSMBusBlockMax : Nat := 32

/-- `Options`: force flag and the backup list. A Go nil slice is `none`;
a non-nil slice is `some` of its elements. -/
structure Options where
  Force : Bool
  BackupRestoreRegs : Option (List Nat)
deriving DecidableEq

/-- `Conn`: the open file handle is implicit (it is the subject of the
oracle); the remaining fields are the force flag, the backup map (modelled
as an insertion-ordered association list with Go-map update semantics),
and the backup address. -/
structure Conn where
  force : Bool
  backupRegs : List (Nat × Nat)
  backupaddr : Nat
deriving DecidableEq

/-- Go map assignment `m[k] = v`: replace the binding if `k` is present,
else append it. -/
def mapInsert (m : List (Nat × Nat)) (k v : Nat) : List (Nat × Nat) :=
  if m.any (fun p => p.1 == k) then
    m.map (fun p => if p.1 == k then (k, v) else p)
  else m ++ [(k, v)]

/-- The address-select ioctl issued by `Conn.addr`: code `i2cSlaveForce`
when the force flag is set, else `i2cSlave`, with the address as argument. -/
def selCall (force : Bool) (a : Nat) : IoctlCall :=
  ⟨if force then i2cSlaveForce else i2cSlave, IoctlArg.addr a⟩

/-- The trace event of one address-select ioctl. -/
def selEvent (force : Bool) (a : Nat) : Event :=
  Event.ioctl (selCall force a)

/-- The SMBus-transfer ioctl call carrying a command descriptor. -/
def transferCall (cmd : I2cCmd) : IoctlCall :=
  ⟨i2cSMBus, IoctlArg.ptr cmd⟩

/-- `ioctl(c.f.Fd(), i2cSMBus, uintptr(ptr))`: dispatch one SMBus
transfer. Returns the error, the command's buffer after the call (the
kernel's output overlaid on the buffer passed in), and the extended
trace. -/
def smbusIoctl (env : Env) (tr : List Event) (cmd : I2cCmd) :
    (Option GoErr × List Nat) × List Event :=
  let r := env.ioctl tr (transferCall cmd)
  ((r.err, goCopy cmd.data r.out), tr ++ [Event.ioctl (transferCall cmd)])

/-- `func (c *Conn) addr(addr uint8) error`: one address-select ioctl,
forced or not according to `c.force`. -/
def Conn.addr (c : Conn) (env : Env) (tr : List Event) (a : Nat) :
    Option GoErr × List Event :=
  if c.force then
    ((env.ioctl tr ⟨i2cSlaveForce, IoctlArg.addr a⟩).err,
      tr ++ [Event.ioctl ⟨i2cSlaveForce, IoctlArg.addr a⟩])
  else
    ((env.ioctl tr ⟨i2cSlave, IoctlArg.addr a⟩).err,
      tr ++ [Event.ioctl ⟨i2cSlave, IoctlArg.addr a⟩])

/-- `func (c *Conn) SetAddr(addr uint8) error`. -/
def Conn.SetAddr (c : Conn) (env : Env) (tr : List Event) (a : Nat) :
    Option GoErr × List Event :=
  c.addr env tr a

/-- The descriptor built by `ReadReg`: read, register `reg`, size class
byte-data, pointing at a one-byte buffer `v` initialised to 0. -/
def readRegCmd (reg : Nat) : I2cCmd :=
  { rw := i2cSMBusRead, cmd := reg, len := i2cSMBusByteData, data := [0] }

/-- The descriptor built by `WriteReg`: write, register `reg`, size class
byte-data, pointing at the one-byte buffer holding `v`. -/
def writeRegCmd (reg v : Nat) : I2cCmd :=
  { rw := i2cSMBusWrite, cmd := reg, len := i2cSMBusByteData, data := [v] }

/-- `func (c *Conn) ReadReg(addr, reg uint8) (uint8, error)`: select the
address, then one byte-data read transfer; returns the byte the kernel
wrote into `v` (0 if it wrote nothing) together with the ioctl error. -/
def Conn.ReadReg (c : Conn) (env : Env) (tr : List Event) (a reg : Nat) :
    (Nat × Option GoErr) × List Event :=
  match c.addr env tr a with
  | (some e, tr1) => ((0, some e), tr1)
  | (none, tr1) =>
    let r := smbusIoctl env tr1 (readRegCmd reg)
    ((r.1.2.headD 0, r.1.1), r.2)

/-- `func (c *Conn) WriteReg(addr, reg, v uint8) error`: select the
address, then one byte-data write transfer carrying `v`. -/
def Conn.WriteReg (c : Conn) (env : Env) (tr : List Event) (a reg v : Nat) :
    Option GoErr × List Event :=
  match c.addr env tr a with
  | (some e, tr1) => (some e, tr1)
  | (none, tr1) =>
    let r := smbusIoctl env tr1 (writeRegCmd reg v)
    (r.1.1, r.2)

/-- The descriptor built by `ReadWord`: read, size class word-data,
pointing at a two-byte buffer (a `uint16` initialised to 0). -/
def readWordCmd (reg : Nat) : I2cCmd :=
  { rw := i2cSMBusRead, cmd := reg, len := i2cSMBusWordData, data := [0, 0] }

/-- The descriptor built by `WriteWord`: write, size class word-data,
pointing at the in-memory (little-endian) bytes of the `uint16` `v`. -/
def writeWordCmd (reg v : Nat) : I2cCmd :=
  { rw := i2cSMBusWrite, cmd := reg, len := i2cSMBusWordData,
    data := [v % 256, v / 256 % 256] }

/-- `func (c *Conn) ReadWord(addr, reg uint8) (uint16, error)`: select
the address, then one word-data read transfer; the result is the word
assembled from the buffer's in-memory bytes. -/
def Conn.ReadWord (c : Conn) (env : Env) (tr : List Event) (a reg : Nat) :
    (Nat × Option GoErr) × List Event :=
  match c.addr env tr a with
  | (some e, tr1) => ((0, some e), tr1)
  | (none, tr1) =>
    let r := smbusIoctl env tr1 (readWordCmd reg)
    ((r.1.2.getD 0 0 + 256 * r.1.2.getD 1 0, r.1.1), r.2)

/-- `func (c *Conn) WriteWord(addr, reg uint8, v uint16) error`. -/
def Conn.WriteWord (c : Conn) (env : Env) (tr : List Event) (a reg v : Nat) :
    Option GoErr × List Event :=
  match c.addr env tr a with
  | (some e, tr1) => (some e, tr1)
  | (none, tr1) =>
    let r := smbusIoctl env tr1 (writeWordCmd reg v)
    (r.1.1, r.2)

/-- The scratch buffer built by `ReadBlockData`:
`data := make([]byte, len(buf)+1, i2cSMBusBlockMax+2); data[0] = byte(len(buf))`. -/
def readScratch (buf : List Nat) : List Nat :=
  (List.replicate (buf.length + 1) 0).set 0 (buf.length % 256)

/-- The descriptor built by `ReadBlockData`: read, size class
I2C-block-data, pointing at the scratch buffer. -/
def readBlockCmd (reg : Nat) (buf : List Nat) : I2cCmd :=
  { rw := i2cSMBusRead, cmd := reg, len := i2cSMBusI2CBlockData,
    data := readScratch buf }

/-- The scratch buffer built by `WriteBlockData`:
`data := make([]byte, 1+len(buf), i2cSMBusBlockMax+2); data[0] = byte(len(buf));
copy(data[1:], buf)`. -/
def writeScratch (buf : List Nat) : List Nat :=
  let data := (List.replicate (1 + buf.length) 0).set 0 (buf.length % 256)
  data.take 1 ++ goCopy (data.drop 1) buf

/-- The descriptor built by `WriteBlockData`: write, size class
I2C-block-data, pointing at the scratch buffer. -/
def writeBlockCmd (reg : Nat) (buf : List Nat) : I2cCmd :=
  { rw := i2cSMBusWrite, cmd := reg, len := i2cSMBusI2CBlockData,
    data := writeScratch buf }

/-- `func (c *Conn) ReadBlockData(addr, reg uint8, buf []byte) error`:
size check against `i2cSMBusBlockMax`, address select, one
I2C-block-data read transfer on the scratch buffer, then
`copy(buf[:len(buf)], data[1:len(buf)+1])`. Returns the error and the
caller's buffer after the call (unchanged on every error path). -/
def Conn.ReadBlockData (c : Conn) (env : Env) (tr : List Event)
    (a reg : Nat) (buf : List Nat) :
    (Option GoErr × List Nat) × List Event :=
  if buf.length > i2cSMBusBlockMax then ((some GoErr.blockMax, buf), tr)
  else
    match c.addr env tr a with
    | (some e, tr1) => ((some e, buf), tr1)
    | (none, tr1) =>
      let r := smbusIoctl env tr1 (readBlockCmd reg buf)
      match r.1.1 with
      | some e => ((some e, buf), r.2)
      | none => ((none, goCopy buf ((r.1.2.drop 1).take buf.length)), r.2)

/-- `func (c *Conn) WriteBlockData(addr, reg uint8, buf []byte) error`:
size check against `i2cSMBusBlockMax`, address select, one
I2C-block-data write transfer carrying the length-prefixed scratch
buffer. -/
def Conn.WriteBlockData (c : Conn) (env : Env) (tr : List Event)
    (a reg : Nat) (buf : List Nat) :
    Option GoErr × List Event :=
  if buf.length > i2cSMBusBlockMax then (some GoErr.blockMax, tr)
  else
    match c.addr env tr a with
    | (some e, tr1) => (some e, tr1)
    | (none, tr1) =>
      let r := smbusIoctl env tr1 (writeBlockCmd reg buf)
      (r.1.1, r.2)

/-- `c.f.Close()`: one close event, result decided by the oracle. -/
def doCloseFile (env : Env) (tr : List Event) : Option GoErr × List Event :=
  (env.closeFile tr, tr ++ [Event.closeFile])

/-- The restore loop of `Conn.Close`: one `WriteReg` per recorded
register; on the first failing write, fall through to `c.f.Close()`. -/
def Conn.closeLoop (c : Conn) (env : Env) (tr : List Event) :
    List (Nat × Nat) → Option GoErr × List Event
  | [] => doCloseFile env tr
  | (k, v) :: rest =>
    match c.WriteReg env tr c.backupaddr k v with
    | (some _, tr1) => doCloseFile env tr1
    | (none, tr1) => c.closeLoop env tr1 rest

/-- `func (c *Conn) Close() error`: restore the backed-up registers, then
close the handle; the returned error is always the close result. -/
def Conn.Close (c : Conn) (env : Env) (tr : List Event) :
    Option GoErr × List Event :=
  c.closeLoop env tr c.backupRegs

/-- `func OpenFileWithOptions(bus int, opts *Options) (*Conn, error)`:
nil-options check, rejection of a non-nil non-empty backup list, then the
`os.OpenFile` attempt on `/dev/i2c-<bus>`. -/
def OpenFileWithOptions (env : Env) (tr : List Event) (bus : Int)
    (opts : Option Options) : Except GoErr Conn × List Event :=
  match opts with
  | none => (Except.error GoErr.optsNil, tr)
  | some o =>
    if (o.BackupRestoreRegs.getD []).length > 0 then
      (Except.error GoErr.backupNotSupported, tr)
    else
      match env.openFile tr bus with
      | some e => (Except.error e, tr ++ [Event.openFile bus])
      | none =>
        (Except.ok { force := o.Force, backupRegs := [], backupaddr := 0 },
          tr ++ [Event.openFile bus])

/-- `func OpenFile(bus int) (*Conn, error)` (legacy wrapper). -/
def OpenFile (env : Env) (tr : List Event) (bus : Int) :
    Except GoErr Conn × List Event :=
  OpenFileWithOptions env tr bus
    (some { Force := false, BackupRestoreRegs := none })

/-- The backup loop of `OpenWithOptions`: one `ReadReg` per listed
register, recording the value; a failing read closes the connection and
aborts the open with that read's error. -/
def backupLoop (env : Env) (tr : List Event) (c : Conn) (a : Nat) :
    List Nat → Except GoErr Conn × List Event
  | [] => (Except.ok c, tr)
  | i :: rest =>
    match c.ReadReg env tr a i with
    | ((_, some e), tr1) =>
      let r := c.Close env tr1
      (Except.error e, r.2)
    | ((reg, none), tr1) =>
      backupLoop env tr1
        { c with backupRegs := mapInsert c.backupRegs i reg } a rest

/-- `func OpenWithOptions(bus int, addr uint8, opts *Options)`: nil check,
open without a backup list, select the address (closing the handle on
failure), then — when the backup list is non-nil — record `backupaddr`
and run the backup loop. -/
def OpenWithOptions (env : Env) (tr : List Event) (bus : Int) (a : Nat)
    (opts : Option Options) : Except GoErr Conn × List Event :=
  match opts with
  | none => (Except.error GoErr.optsNil, tr)
  | some o =>
    match OpenFileWithOptions env tr bus
        (some { Force := o.Force, BackupRestoreRegs := none }) with
    | (Except.error e, tr1) => (Except.error e, tr1)
    | (Except.ok c, tr1) =>
      match c.addr env tr1 a with
      | (some e, tr2) =>
        let r := c.Close env tr2
        (Except.error e, r.2)
      | (none, tr2) =>
        match o.BackupRestoreRegs with
        | none => (Except.ok c, tr2)
        | some regs => backupLoop env tr2 { c with backupaddr := a } a regs

/-- `func Open(bus int, addr uint8) (*Conn, error)` (legacy wrapper over
the options interface): note it passes an empty **non-nil** backup list. -/
def Open (env : Env) (tr : List Event) (bus : Int) (a : Nat) :
    Except GoErr Conn × List Event :=
  OpenWithOptions env tr bus a
    (some { Force := false, BackupRestoreRegs := some [] })

namespace Legacy

/-!
The legacy duplicate implementation (the second source file): a `Conn`
whose only field is the open file handle, which the embedding carries in
the oracle, so the connection value carries no data.
-/

/-- Legacy `Conn`: only the file handle, implicit in the oracle. -/
structure Conn where
deriving DecidableEq

/-- Legacy `func (c *Conn) addr(addr uint8) error`: always the plain
(non-forced) select ioctl. -/
def Conn.addr (_c : Conn) (env : Env) (tr : List Event) (a : Nat) :
    Option GoErr × List Event :=
  ((env.ioctl tr ⟨i2cSlave, IoctlArg.addr a⟩).err,
    tr ++ [Event.ioctl ⟨i2cSlave, IoctlArg.addr a⟩])

/-- Legacy `func Open(bus int, addr uint8) (*Conn, error)`: open the
device file, then one plain select ioctl; **on select failure the file is
not closed**. -/
def Open (env : Env) (tr : List Event) (bus : Int) (a : Nat) :
    Except GoErr Conn × List Event :=
  match env.openFile tr bus with
  | some e => (Except.error e, tr ++ [Event.openFile bus])
  | none =>
    let tr1 := tr ++ [Event.openFile bus]
    match (env.ioctl tr1 ⟨i2cSlave, IoctlArg.addr a⟩).err with
    | some e =>
      (Except.error e, tr1 ++ [Event.ioctl ⟨i2cSlave, IoctlArg.addr a⟩])
    | none =>
      (Except.ok ⟨⟩, tr1 ++ [Event.ioctl ⟨i2cSlave, IoctlArg.addr a⟩])

/-- Legacy `func (c *Conn) Close() error`: just `c.f.Close()`. -/
def Conn.Close (_c : Conn) (env : Env) (tr : List Event) :
    Option GoErr × List Event :=
  doCloseFile env tr

/-- Legacy `ReadReg`: identical text to the options-based one. -/
def Conn.ReadReg (c : Conn) (env : Env) (tr : List Event) (a reg : Nat) :
    (Nat × Option GoErr) × List Event :=
  match c.addr env tr a with
  | (some e, tr1) => ((0, some e), tr1)
  | (none, tr1) =>
    let r := smbusIoctl env tr1 (readRegCmd reg)
    ((r.1.2.headD 0, r.1.1), r.2)

/-- Legacy `WriteReg`. -/
def Conn.WriteReg (c : Conn) (env : Env) (tr : List Event) (a reg v : Nat) :
    Option GoErr × List Event :=
  match c.addr env tr a with
  | (some e, tr1) => (some e, tr1)
  | (none, tr1) =>
    let r := smbusIoctl env tr1 (writeRegCmd reg v)
    (r.1.1, r.2)

/-- Legacy `ReadWord`. -/
def Conn.ReadWord (c : Conn) (env : Env) (tr : List Event) (a reg : Nat) :
    (Nat × Option GoErr) × List Event :=
  match c.addr env tr a with
  | (some e, tr1) => ((0, some e), tr1)
  | (none, tr1) =>
    let r := smbusIoctl env tr1 (readWordCmd reg)
    ((r.1.2.getD 0 0 + 256 * r.1.2.getD 1 0, r.1.1), r.2)

/-- Legacy `WriteWord`. -/
def Conn.WriteWord (c : Conn) (env : Env) (tr : List Event) (a reg v : Nat) :
    Option GoErr × List Event :=
  match c.addr env tr a with
  | (some e, tr1) => (some e, tr1)
  | (none, tr1) =>
    let r := smbusIoctl env tr1 (writeWordCmd reg v)
    (r.1.1, r.2)

end Legacy

/-!
Concrete oracles used to instantiate the theorems.
-/

/-- An oracle on which every OS call succeeds; every ioctl writes a
single 0 byte. -/
def okEnv : Env :=
  { openFile := fun _ _ => none
    ioctl := fun _ _ => { err := none, out := [0] }
    closeFile := fun _ => none }

/-- An oracle on which opening succeeds but every address-select ioctl
fails with OS error 5; transfers succeed. -/
def selFailEnv : Env :=
  { openFile := fun _ _ => none
    ioctl := fun _ call =>
      match call.arg with
      | IoctlArg.addr _ => { err := some (GoErr.osErr 5), out := [] }
      | IoctlArg.ptr _ => { err := none, out := [0] }
    closeFile := fun _ => none }

/-- An oracle on which exactly the byte-data read transfer of register
`rbad` fails with `e`; everything else succeeds, reads producing 0. -/
def failReadEnv (rbad : Nat) (e : GoErr) : Env :=
  { openFile := fun _ _ => none
    ioctl := fun _ call =>
      if call == transferCall (readRegCmd rbad) then { err := some e, out := [] }
      else { err := none, out := [0] }
    closeFile := fun _ => none }

/-- An oracle on which every byte-data write transfer to register `kbad`
fails with `e`; everything else succeeds. -/
def failWriteEnv (kbad : Nat) (e : GoErr) : Env :=
  { openFile := fun _ _ => none
    ioctl := fun _ call =>
      match call.arg with
      | IoctlArg.ptr cmd =>
        if cmd.rw == i2cSMBusWrite && cmd.cmd == kbad then
          { err := some e, out := [] }
        else { err := none, out := [0] }
      | IoctlArg.addr _ => { err := none, out := [0] }
    closeFile := fun _ => none }

/-- Is this event an SMBus write transfer to register `reg`? -/
def isWriteTo (reg : Nat) : Event → Bool
  | Event.ioctl ⟨code, IoctlArg.ptr cmd⟩ =>
    code == i2cSMBus && cmd.rw == i2cSMBusWrite && cmd.cmd == reg
  | _ => false

/-- The buffer carried by the most recent SMBus write transfer to
register `reg` in the trace ([] if there is none). -/
def lastWriteData (tr : List Event) (reg : Nat) : List Nat :=
  match tr.reverse.find? (isWriteTo reg) with
  | some (Event.ioctl ⟨_, IoctlArg.ptr cmd⟩) => cmd.data
  | _ => []

/-- A bus that echoes writes: a read transfer of register `reg` returns
the bytes last written to `reg`; every call succeeds. -/
def echoEnv : Env :=
  { openFile := fun _ _ => none
    ioctl := fun tr call =>
      match call with
      | ⟨code, IoctlArg.ptr cmd⟩ =>
        if code == i2cSMBus && cmd.rw == i2cSMBusRead then
          { err := none, out := lastWriteData tr cmd.cmd }
        else { err := none, out := [] }
      | _ => { err := none, out := [] }
    closeFile := fun _ => none }

/-- The pair of events (address select, byte-data read transfer) that one
`ReadReg` produces, for each listed register in order. -/
def readRegEvents (force : Bool) (a : Nat) : List Nat → List Event
  | [] => []
  | r :: rest =>
    selEvent force a :: Event.ioctl (transferCall (readRegCmd r)) ::
      readRegEvents force a rest

/-- The pair of events (address select, byte-data write transfer) that one
restore `WriteReg` produces, for each recorded (register, value) pair in
order. -/
def restoreEvents (force : Bool) (a : Nat) : List (Nat × Nat) → List Event
  | [] => []
  | (k, v) :: rest =>
    selEvent force a :: Event.ioctl (transferCall (writeRegCmd k v)) ::
      restoreEvents force a rest

/-!
Helper lemmas.
-/

theorem goCopy_eq_of_length (dst src : List Nat) (h : src.length = dst.length) :
    goCopy dst src = src := by
  unfold goCopy
  rw [h, min_self, List.take_of_length_le (le_of_eq h), List.drop_length,
    List.append_nil]

theorem goCopy_length (dst src : List Nat) :
    (goCopy dst src).length = dst.length := by
  unfold goCopy
  simp only [List.length_append, List.length_take, List.length_drop]
  omega

theorem readScratch_eq (buf : List Nat) :
    readScratch buf = buf.length % 256 :: List.replicate buf.length 0 := by
  simp [readScratch, List.replicate_succ]

theorem writeScratch_eq (buf : List Nat) :
    writeScratch buf = buf.length % 256 :: buf := by
  have h1 : (1 : Nat) + buf.length = buf.length + 1 := Nat.add_comm 1 buf.length
  simp only [writeScratch, h1, List.replicate_succ, List.set_cons_zero,
    List.take_succ_cons, List.take_zero, List.drop_succ_cons, List.drop_zero]
  rw [goCopy_eq_of_length _ _ (by simp)]
  rfl

theorem readScratch_length (buf : List Nat) :
    (readScratch buf).length = buf.length + 1 := by
  simp [readScratch_eq]

theorem writeScratch_length (buf : List Nat) :
    (writeScratch buf).length = buf.length + 1 := by
  simp [writeScratch_eq]

theorem Conn.addr_eq (c : Conn) (env : Env) (tr : List Event) (a : Nat) :
    c.addr env tr a =
      ((env.ioctl tr (selCall c.force a)).err, tr ++ [selEvent c.force a]) := by
  cases hf : c.force <;> simp [Conn.addr, selCall, selEvent, hf]

/-!
C1: oversize block buffers.
-/

/-- C1: for every buffer of more than 32 bytes, both ReadBlockData and
WriteBlockData return `errSMBusBlockDataMax` immediately and issue zero
ioctl calls — the trace is returned unchanged, so neither an
address-select nor a transfer ioctl happened, on any oracle. -/
theorem blockData_oversize (c : Conn) (env : Env) (tr : List Event)
    (a reg : Nat) (buf : List Nat) (h : 32 < buf.length) :
    c.ReadBlockData env tr a reg buf = ((some GoErr.blockMax, buf), tr) ∧
    c.WriteBlockData env tr a reg buf = (some GoErr.blockMax, tr) := by
  constructor <;>
    simp [Conn.ReadBlockData, Conn.WriteBlockData, i2cSMBusBlockMax, h]

/-- Witness for C1 at a concrete 33-byte buffer. -/
theorem blockData_oversize_witness :
    32 < (List.replicate 33 0).length ∧
    (Conn.ReadBlockData ⟨false, [], 0⟩ okEnv [] 80 16 (List.replicate 33 0) =
        ((some GoErr.blockMax, List.replicate 33 0), []) ∧
      Conn.WriteBlockData ⟨false, [], 0⟩ okEnv [] 80 16 (List.replicate 33 0) =
        (some GoErr.blockMax, [])) :=
  ⟨by decide,
   blockData_oversize ⟨false, [], 0⟩ okEnv [] 80 16 (List.replicate 33 0)
     (by decide)⟩

/-!
C7: nil options.
-/

/-- C7 counterexample: passing a nil options pointer to OpenWithOptions
or OpenFileWithOptions does **not** panic or abort — both return the
ordinary error value `fmt.Errorf("opts is nil")` to the caller. -/
theorem nilOpts_error_return_cex :
    OpenWithOptions okEnv [] 1 80 none = (Except.error GoErr.optsNil, []) ∧
    OpenFileWithOptions okEnv [] 1 none = (Except.error GoErr.optsNil, []) := by
  constructor <;> rfl

/-- C7 (amended): no public operation panics or aborts; in particular a
nil options pointer to OpenWithOptions or OpenFileWithOptions yields the
error return `opts is nil` on every oracle, not a panic (every operation
of the embedding is a total function into an explicit result type). -/
theorem nilOpts_error_return (env : Env) (tr : List Event) (bus : Int)
    (a : Nat) :
    OpenWithOptions env tr bus a none = (Except.error GoErr.optsNil, tr) ∧
    OpenFileWithOptions env tr bus none = (Except.error GoErr.optsNil, tr) := by
  constructor <;> rfl

/-!
C8: the address-less open rejects a backup list.
-/

/-- C8: OpenFileWithOptions (the address-less open variant) rejects every
non-empty BackupRestoreRegs list with the configuration error, before
opening any file: the trace is unchanged and no Connection is returned. -/
theorem openFileWithOptions_rejects_backup (env : Env) (tr : List Event)
    (bus : Int) (f : Bool) (l : List Nat) (h : l ≠ []) :
    OpenFileWithOptions env tr bus (some ⟨f, some l⟩) =
      (Except.error GoErr.backupNotSupported, tr) := by
  simp [OpenFileWithOptions, List.length_pos, h]

/-- Witness for C8 at a concrete one-element backup list. -/
theorem openFileWithOptions_rejects_backup_witness :
    ([3] : List Nat) ≠ [] ∧
    OpenFileWithOptions okEnv [] 1 (some ⟨false, some [3]⟩) =
      (Except.error GoErr.backupNotSupported, []) :=
  ⟨by decide, openFileWithOptions_rejects_backup okEnv [] 1 false [3] (by decide)⟩

/-!
C4: ioctl sequence of the byte/word register operations.
-/

/-- C4: every invocation of ReadReg, WriteReg, ReadWord or WriteWord
issues exactly one address-select ioctl — control code `i2cSlaveForce`
(0x0706) when the connection's force flag is set, else `i2cSlave`
(0x0703) — and, when that select succeeds, exactly one SMBus-transfer
ioctl (control code `i2cSMBus`, 0x0720); when the select fails, its error
is returned verbatim and no transfer ioctl is issued. -/
theorem byteWordOps_ioctl_sequence (c : Conn) (env : Env) (tr : List Event)
    (a reg v w : Nat) :
    (∀ e, (env.ioctl tr (selCall c.force a)).err = some e →
      c.ReadReg env tr a reg = ((0, some e), tr ++ [selEvent c.force a]) ∧
      c.WriteReg env tr a reg v = (some e, tr ++ [selEvent c.force a]) ∧
      c.ReadWord env tr a reg = ((0, some e), tr ++ [selEvent c.force a]) ∧
      c.WriteWord env tr a reg w = (some e, tr ++ [selEvent c.force a])) ∧
    ((env.ioctl tr (selCall c.force a)).err = none →
      (c.ReadReg env tr a reg).2 =
        tr ++ [selEvent c.force a,
          Event.ioctl (transferCall (readRegCmd reg))] ∧
      (c.WriteReg env tr a reg v).2 =
        tr ++ [selEvent c.force a,
          Event.ioctl (transferCall (writeRegCmd reg v))] ∧
      (c.ReadWord env tr a reg).2 =
        tr ++ [selEvent c.force a,
          Event.ioctl (transferCall (readWordCmd reg))] ∧
      (c.WriteWord env tr a reg w).2 =
        tr ++ [selEvent c.force a,
          Event.ioctl (transferCall (writeWordCmd reg w))]) := by
  constructor
  · intro e he
    refine ⟨?_, ?_, ?_, ?_⟩ <;>
      simp [Conn.ReadReg, Conn.WriteReg, Conn.ReadWord, Conn.WriteWord,
        Conn.addr_eq, he]
  · intro he
    refine ⟨?_, ?_, ?_, ?_⟩ <;>
      simp [Conn.ReadReg, Conn.WriteReg, Conn.ReadWord, Conn.WriteWord,
        Conn.addr_eq, he, smbusIoctl]

/-- Witness for C4: the failing-select branch on `selFailEnv` and the
successful branch on `okEnv`, both at concrete inputs. -/
theorem byteWordOps_ioctl_sequence_witness :
    Conn.ReadReg ⟨false, [], 0⟩ selFailEnv [] 80 16 =
      ((0, some (GoErr.osErr 5)), [selEvent false 80]) ∧
    (Conn.ReadReg ⟨false, [], 0⟩ okEnv [] 80 16).2 =
      [selEvent false 80, Event.ioctl (transferCall (readRegCmd 16))] :=
  ⟨((byteWordOps_ioctl_sequence ⟨false, [], 0⟩ selFailEnv [] 80 16 0 0).1
      (GoErr.osErr 5) rfl).1,
   ((byteWordOps_ioctl_sequence ⟨false, [], 0⟩ okEnv [] 80 16 0 0).2 rfl).1⟩

/-!
C2: scratch-buffer layout of the block operations.
-/

/-- C2: for len(buf) ≤ 32, WriteBlockData builds a scratch buffer of
length len(buf)+1 whose byte 0 is len(buf) and whose bytes 1..len(buf)
are the payload, and dispatches it as one I2C-block-data transfer;
ReadBlockData builds the analogous len(buf)+1 scratch buffer, dispatches
it, and on transfer success copies scratch bytes 1..len(buf)+1 (the
kernel output overlaid on the scratch) into the caller's buffer,
discarding scratch byte 0 — the device-reported length — without
validating it: the read succeeds for every kernel output `out`,
whatever its byte 0 holds. -/
theorem blockData_scratch_layout (c : Conn) (env : Env) (tr : List Event)
    (a reg : Nat) (buf : List Nat) (h : buf.length ≤ 32) :
    writeScratch buf = buf.length :: buf ∧
    readScratch buf = buf.length :: List.replicate buf.length 0 ∧
    ((env.ioctl tr (selCall c.force a)).err = none →
      c.WriteBlockData env tr a reg buf =
        ((env.ioctl (tr ++ [selEvent c.force a])
            (transferCall (writeBlockCmd reg buf))).err,
          tr ++ [selEvent c.force a,
            Event.ioctl (transferCall (writeBlockCmd reg buf))]) ∧
      ((env.ioctl (tr ++ [selEvent c.force a])
          (transferCall (readBlockCmd reg buf))).err = none →
        c.ReadBlockData env tr a reg buf =
          ((none,
            ((goCopy (readScratch buf)
                (env.ioctl (tr ++ [selEvent c.force a])
                  (transferCall (readBlockCmd reg buf))).out).drop 1).take
              buf.length),
            tr ++ [selEvent c.force a,
              Event.ioctl (transferCall (readBlockCmd reg buf))]))) := by
  have hmod : buf.length % 256 = buf.length :=
    Nat.mod_eq_of_lt (lt_of_le_of_lt h (by norm_num))
  have hle : ¬ (32 < buf.length) := not_lt.mpr h
  refine ⟨by rw [writeScratch_eq, hmod], by rw [readScratch_eq, hmod], ?_⟩
  intro hsel
  constructor
  · simp [Conn.WriteBlockData, i2cSMBusBlockMax, hle, Conn.addr_eq, hsel,
      smbusIoctl]
  · intro htrans
    have hsrc :
        (List.take buf.length
          (goCopy (readScratch buf)
            (env.ioctl (tr ++ [selEvent c.force a])
              (transferCall (readBlockCmd reg buf))).out).tail).length
          = buf.length := by
      simp [List.length_tail, goCopy_length, readScratch_length]
    simp only [readBlockCmd] at htrans hsrc
    simp [Conn.ReadBlockData, i2cSMBusBlockMax, hle, Conn.addr_eq, hsel,
      smbusIoctl, htrans, readBlockCmd, List.drop_one,
      goCopy_eq_of_length _ _ hsrc]

/-- Witness for C2 at `buf = [1, 2, 3]` on `okEnv` (whose kernel output
is the single byte 0, so the copied-back buffer is `[0, 0, 0]`). -/
theorem blockData_scratch_layout_witness :
    writeScratch [1, 2, 3] = [3, 1, 2, 3] ∧
    Conn.WriteBlockData ⟨false, [], 0⟩ okEnv [] 80 32 [1, 2, 3] =
      ((okEnv.ioctl [selEvent false 80]
          (transferCall (writeBlockCmd 32 [1, 2, 3]))).err,
        [selEvent false 80,
          Event.ioctl (transferCall (writeBlockCmd 32 [1, 2, 3]))]) ∧
    Conn.ReadBlockData ⟨false, [], 0⟩ okEnv [] 80 32 [1, 2, 3] =
      ((none,
        ((goCopy (readScratch [1, 2, 3])
            (okEnv.ioctl [selEvent false 80]
              (transferCall (readBlockCmd 32 [1, 2, 3]))).out).drop 1).take 3),
        [selEvent false 80,
          Event.ioctl (transferCall (readBlockCmd 32 [1, 2, 3]))]) :=
  ⟨(blockData_scratch_layout ⟨false, [], 0⟩ okEnv [] 80 32 [1, 2, 3]
      (by decide)).1,
   ((blockData_scratch_layout ⟨false, [], 0⟩ okEnv [] 80 32 [1, 2, 3]
      (by decide)).2.2 rfl).1,
   ((blockData_scratch_layout ⟨false, [], 0⟩ okEnv [] 80 32 [1, 2, 3]
      (by decide)).2.2 rfl).2 rfl⟩

/-!
C3: write/read round trip on an echoing bus.
-/

theorem readBlockCmd_data (reg : Nat) (buf : List Nat) :
    (readBlockCmd reg buf).data = readScratch buf := rfl

theorem echoEnv_sel (tr : List Event) (f : Bool) (a : Nat) :
    echoEnv.ioctl tr (selCall f a) = { err := none, out := [] } := by
  cases f <;> rfl

theorem echoEnv_read (tr : List Event) (cmd : I2cCmd)
    (h : cmd.rw = i2cSMBusRead) :
    echoEnv.ioctl tr (transferCall cmd) =
      { err := none, out := lastWriteData tr cmd.cmd } := by
  simp [echoEnv, transferCall, h]

theorem isWriteTo_selEvent (reg : Nat) (f : Bool) (a : Nat) :
    isWriteTo reg (selEvent f a) = false := by
  cases f <;> rfl

theorem lastWriteData_append (tr0 : List Event) (reg : Nat) (e1 e2 : Event)
    (cmd : I2cCmd) (hrw : cmd.rw = i2cSMBusWrite) (hcmd : cmd.cmd = reg)
    (h2 : isWriteTo reg e2 = false) :
    lastWriteData (tr0 ++ [e1, Event.ioctl (transferCall cmd), e2]) reg =
      cmd.data := by
  have hw : isWriteTo reg
      (Event.ioctl { code := i2cSMBus, arg := IoctlArg.ptr cmd }) = true := by
    simp [isWriteTo, hrw, hcmd]
  simp [lastWriteData, List.find?_cons, h2, hw, transferCall]

/-- C3: on the echoing bus (a read transfer returns the bytes last
written to the same register), WriteBlockData of `buf` (len ≤ 32)
followed by ReadBlockData into a buffer of the same length at the same
address and register succeeds and yields exactly the original `buf`. -/
theorem block_roundtrip_echo (c : Conn) (tr0 : List Event) (a reg : Nat)
    (buf buf2 : List Nat) (h1 : buf.length ≤ 32)
    (h2 : buf2.length = buf.length) :
    (c.ReadBlockData echoEnv (c.WriteBlockData echoEnv tr0 a reg buf).2
        a reg buf2).1 = (none, buf) := by
  have hle : ¬ (32 < buf.length) := not_lt.mpr h1
  have hle2 : ¬ (32 < buf2.length) := by rw [h2]; exact hle
  have hw : (c.WriteBlockData echoEnv tr0 a reg buf).2 =
      tr0 ++ [selEvent c.force a,
        Event.ioctl (transferCall (writeBlockCmd reg buf))] := by
    simp [Conn.WriteBlockData, i2cSMBusBlockMax, hle, Conn.addr_eq,
      echoEnv_sel, smbusIoctl]
  rw [hw]
  have hlw : lastWriteData (tr0 ++ [selEvent c.force a,
      Event.ioctl (transferCall (writeBlockCmd reg buf)),
      selEvent c.force a]) reg = writeScratch buf :=
    lastWriteData_append tr0 reg _ _ (writeBlockCmd reg buf) rfl rfl
      (isWriteTo_selEvent reg c.force a)
  have hread : echoEnv.ioctl (tr0 ++ [selEvent c.force a,
      Event.ioctl (transferCall (writeBlockCmd reg buf)),
      selEvent c.force a]) (transferCall (readBlockCmd reg buf2)) =
      { err := none, out := writeScratch buf } := by
    rw [echoEnv_read _ _ rfl]
    have : (readBlockCmd reg buf2).cmd = reg := rfl
    rw [this, hlw]
  have hg1 : goCopy (readScratch buf2) (writeScratch buf) =
      writeScratch buf :=
    goCopy_eq_of_length _ _ (by rw [writeScratch_length, readScratch_length, h2])
  have htail : (writeScratch buf).tail = buf := by simp [writeScratch_eq]
  have htake : buf.take buf2.length = buf := by rw [h2, List.take_length]
  have hg2 : goCopy buf2 buf = buf := goCopy_eq_of_length _ _ h2.symm
  simp [Conn.ReadBlockData, i2cSMBusBlockMax, hle2, Conn.addr_eq,
    echoEnv_sel, smbusIoctl, hread, readBlockCmd_data, hg1, htail, htake,
    hg2, List.drop_one]

/-- Witness for C3: round-tripping `[1, 2, 3, 4, 5]` through register
0x20 at address 0x50 on the echoing bus returns the original bytes. -/
theorem block_roundtrip_echo_witness :
    ([1, 2, 3, 4, 5] : List Nat).length ≤ 32 ∧
    (Conn.ReadBlockData ⟨false, [], 0⟩ echoEnv
        (Conn.WriteBlockData ⟨false, [], 0⟩ echoEnv [] 80 32 [1, 2, 3, 4, 5]).2
        80 32 [0, 0, 0, 0, 0]).1 = (none, [1, 2, 3, 4, 5]) :=
  ⟨by decide,
   block_roundtrip_echo ⟨false, [], 0⟩ [] 80 32 [1, 2, 3, 4, 5]
     [0, 0, 0, 0, 0] (by decide) (by decide)⟩

/-!
Shape of the close/restore loop.
-/

theorem closeLoop_shape (c : Conn) (env : Env) :
    ∀ (l : List (Nat × Nat)) (tr : List Event),
      ∃ tr2, c.closeLoop env tr l = (env.closeFile tr2, tr2 ++ [Event.closeFile])
  | [], tr => ⟨tr, rfl⟩
  | (k, v) :: rest, tr => by
    rcases h : c.WriteReg env tr c.backupaddr k v with ⟨err, tr1⟩
    cases err with
    | some e => exact ⟨tr1, by simp [Conn.closeLoop, h, doCloseFile]⟩
    | none =>
      obtain ⟨tr2, h2⟩ := closeLoop_shape c env rest tr1
      exact ⟨tr2, by simp [Conn.closeLoop, h, h2]⟩

theorem closeLoop_ok (c : Conn) (env : Env)
    (Hsel : ∀ t, (env.ioctl t (selCall c.force c.backupaddr)).err = none)
    (Hw : ∀ t k v, (env.ioctl t (transferCall (writeRegCmd k v))).err = none) :
    ∀ (l : List (Nat × Nat)) (tr : List Event),
      c.closeLoop env tr l =
        (env.closeFile (tr ++ restoreEvents c.force c.backupaddr l),
          tr ++ restoreEvents c.force c.backupaddr l ++ [Event.closeFile])
  | [], tr => by simp [Conn.closeLoop, doCloseFile, restoreEvents]
  | (k, v) :: rest, tr => by
    have hwr : c.WriteReg env tr c.backupaddr k v =
        (none, tr ++ [selEvent c.force c.backupaddr,
          Event.ioctl (transferCall (writeRegCmd k v))]) := by
      simp [Conn.WriteReg, Conn.addr_eq, Hsel tr, smbusIoctl, Hw]
    simp only [Conn.closeLoop, hwr]
    rw [closeLoop_ok c env Hsel Hw rest]
    simp [restoreEvents]

theorem closeLoop_fail (c : Conn) (kbad v : Nat) (e : GoErr)
    (l2 : List (Nat × Nat)) :
    ∀ (l1 : List (Nat × Nat)) (tr : List Event), (∀ p ∈ l1, p.1 ≠ kbad) →
      c.closeLoop (failWriteEnv kbad e) tr (l1 ++ (kbad, v) :: l2) =
        (none,
          tr ++ restoreEvents c.force c.backupaddr l1 ++
            [selEvent c.force c.backupaddr,
              Event.ioctl (transferCall (writeRegCmd kbad v)), Event.closeFile])
  | [], tr, _ => by
    have hwr : c.WriteReg (failWriteEnv kbad e) tr c.backupaddr kbad v =
        (some e, tr ++ [selEvent c.force c.backupaddr,
          Event.ioctl (transferCall (writeRegCmd kbad v))]) := by
      simp [Conn.WriteReg, Conn.addr_eq, failWriteEnv, selCall, smbusIoctl,
        transferCall, writeRegCmd]
    have hcf : (failWriteEnv kbad e).closeFile
        (tr ++ [selEvent c.force c.backupaddr,
          Event.ioctl (transferCall (writeRegCmd kbad v))]) = none := rfl
    simp [Conn.closeLoop, hwr, doCloseFile, restoreEvents, hcf]
  | (k, w) :: rest, tr, h => by
    have hk : k ≠ kbad := h (k, w) (by simp)
    have hwr : c.WriteReg (failWriteEnv kbad e) tr c.backupaddr k w =
        (none, tr ++ [selEvent c.force c.backupaddr,
          Event.ioctl (transferCall (writeRegCmd k w))]) := by
      simp [Conn.WriteReg, Conn.addr_eq, failWriteEnv, selCall, smbusIoctl,
        transferCall, writeRegCmd, hk]
    simp only [List.cons_append, Conn.closeLoop, hwr, List.append_eq]
    rw [closeLoop_fail c kbad v e l2 rest _ (fun p hp => h p (by simp [hp]))]
    simp [restoreEvents]

/-!
C6: Close restores then closes, and always returns the close result.
-/

/-- C6: (i) when every restore write succeeds, Close performs one
WriteReg (select + write transfer) at the backup address per recorded
register, in the model's map order, then one close of the handle, and
returns the handle-close result; (ii) on **every** oracle, whatever
happens to the restore writes, the last event is the handle close and the
returned error is the close result — a restore error is never returned;
(iii) on the oracle whose writes to register `kbad` fail, the restores
after `kbad` are abandoned: the trace holds the restores before `kbad`,
the failed write, and the close, and Close still returns the close
result (`none`), not the restore error `e`. -/
theorem close_restore_behavior :
    (∀ (c : Conn) (env : Env) (tr : List Event),
      (∀ t call, (env.ioctl t call).err = none) →
      c.Close env tr =
        (env.closeFile (tr ++ restoreEvents c.force c.backupaddr c.backupRegs),
          tr ++ restoreEvents c.force c.backupaddr c.backupRegs ++
            [Event.closeFile])) ∧
    (∀ (c : Conn) (env : Env) (tr : List Event),
      ∃ tr2, c.Close env tr = (env.closeFile tr2, tr2 ++ [Event.closeFile])) ∧
    (∀ (f : Bool) (ba kbad v : Nat) (e : GoErr)
        (l1 l2 : List (Nat × Nat)) (tr : List Event),
      (∀ p ∈ l1, p.1 ≠ kbad) →
      Conn.Close ⟨f, l1 ++ (kbad, v) :: l2, ba⟩ (failWriteEnv kbad e) tr =
        (none,
          tr ++ restoreEvents f ba l1 ++
            [selEvent f ba, Event.ioctl (transferCall (writeRegCmd kbad v)),
              Event.closeFile])) := by
  refine ⟨?_, ?_, ?_⟩
  · intro c env tr Hio
    exact closeLoop_ok c env (fun t => Hio t _) (fun t k v => Hio t _)
      c.backupRegs tr
  · intro c env tr
    exact closeLoop_shape c env c.backupRegs tr
  · intro f ba kbad v e l1 l2 tr h
    exact closeLoop_fail ⟨f, l1 ++ (kbad, v) :: l2, ba⟩ kbad v e l2 l1 tr h

/-- Witness for C6 at concrete connections: a successful restore of
{(1, 2)}, the universal close-last shape, and an abandoned restore where
the write to register 7 fails but Close returns the close result. -/
theorem close_restore_behavior_witness :
    Conn.Close ⟨false, [(1, 2)], 9⟩ okEnv [] =
      (none, restoreEvents false 9 [(1, 2)] ++ [Event.closeFile]) ∧
    (∃ tr2, Conn.Close ⟨false, [(1, 2)], 9⟩ okEnv [] =
      (okEnv.closeFile tr2, tr2 ++ [Event.closeFile])) ∧
    Conn.Close ⟨false, [(1, 2), (7, 3), (4, 5)], 9⟩
        (failWriteEnv 7 (GoErr.osErr 6)) [] =
      (none,
        restoreEvents false 9 [(1, 2)] ++
          [selEvent false 9, Event.ioctl (transferCall (writeRegCmd 7 3)),
            Event.closeFile]) :=
  ⟨close_restore_behavior.1 ⟨false, [(1, 2)], 9⟩ okEnv [] (fun _ _ => rfl),
   close_restore_behavior.2.1 ⟨false, [(1, 2)], 9⟩ okEnv [],
   close_restore_behavior.2.2 false 9 7 3 (GoErr.osErr 6) [(1, 2)] [(4, 5)]
     [] (by decide)⟩

/-!
Shape of the backup-read loop.
-/

theorem readReg_err_of_ok (c : Conn) (env : Env) (tr : List Event) (a r : Nat)
    (Hio : ∀ t call, (env.ioctl t call).err = none) :
    (c.ReadReg env tr a r).1.2 = none := by
  simp [Conn.ReadReg, Conn.addr_eq, Hio, smbusIoctl]

theorem readReg_trace_of_ok (c : Conn) (env : Env) (tr : List Event)
    (a r : Nat) (Hio : ∀ t call, (env.ioctl t call).err = none) :
    (c.ReadReg env tr a r).2 =
      tr ++ [selEvent c.force a, Event.ioctl (transferCall (readRegCmd r))] := by
  simp [Conn.ReadReg, Conn.addr_eq, Hio, smbusIoctl]

theorem backupLoop_ok (env : Env) (a : Nat)
    (Hio : ∀ t call, (env.ioctl t call).err = none) :
    ∀ (regs : List Nat) (tr : List Event) (c : Conn),
      ∃ c2 : Conn, backupLoop env tr c a regs =
        (Except.ok c2, tr ++ readRegEvents c.force a regs)
  | [], tr, c => ⟨c, by simp [backupLoop, readRegEvents]⟩
  | r :: rest, tr, c => by
    rcases hrr : c.ReadReg env tr a r with ⟨⟨val, err⟩, tr1⟩
    have herr : err = none := by
      have h := readReg_err_of_ok c env tr a r Hio
      rw [hrr] at h
      exact h
    have htr1 : tr1 = tr ++ [selEvent c.force a,
        Event.ioctl (transferCall (readRegCmd r))] := by
      have h := readReg_trace_of_ok c env tr a r Hio
      rw [hrr] at h
      exact h
    subst herr htr1
    obtain ⟨c2, hc2⟩ := backupLoop_ok env a Hio rest
      (tr ++ [selEvent c.force a, Event.ioctl (transferCall (readRegCmd r))])
      { c with backupRegs := mapInsert c.backupRegs r val }
    exact ⟨c2, by simp [backupLoop, hrr, hc2, readRegEvents]⟩

theorem backupLoop_error (env : Env) (a : Nat) :
    ∀ (regs : List Nat) (tr : List Event) (c : Conn) (e : GoErr)
      (tr2 : List Event),
      backupLoop env tr c a regs = (Except.error e, tr2) →
      ∃ pre, tr2 = pre ++ [Event.closeFile]
  | [], tr, c, e, tr2 => by
    intro h
    simp [backupLoop] at h
  | r :: rest, tr, c, e, tr2 => by
    intro h
    rcases hrr : c.ReadReg env tr a r with ⟨⟨val, err⟩, tr1⟩
    cases err with
    | some e0 =>
      simp only [backupLoop, hrr] at h
      obtain ⟨tr3, hcl⟩ := closeLoop_shape c env c.backupRegs tr1
      rw [Prod.mk.injEq] at h
      refine ⟨tr3, ?_⟩
      rw [← h.2, Conn.Close, hcl]
    | none =>
      simp only [backupLoop, hrr] at h
      exact backupLoop_error env a rest tr1 _ e tr2 h

/-!
C5: OpenWithOptions with a backup list.
-/

/-- C5: (i) on an oracle where every call succeeds, OpenWithOptions with
a non-nil backup list performs, after the open and the initial address
select, exactly one ReadReg (select + byte-data read transfer) at the
bound address per listed register, in list order, before returning the
Connection; (ii) whenever the file open succeeded but OpenWithOptions
returns an error (in particular when a backup read fails), the Connection
is not returned and the trace ends with the internal handle close — the
handle is not leaked. -/
theorem openWithOptions_backup_reads :
    (∀ (env : Env) (tr : List Event) (bus : Int) (a : Nat) (f : Bool)
        (regs : List Nat),
      (∀ t b, env.openFile t b = none) →
      (∀ t call, (env.ioctl t call).err = none) →
      ∃ c2 : Conn,
        OpenWithOptions env tr bus a (some ⟨f, some regs⟩) =
          (Except.ok c2,
            tr ++ Event.openFile bus :: selEvent f a ::
              readRegEvents f a regs)) ∧
    (∀ (env : Env) (tr : List Event) (bus : Int) (a : Nat) (f : Bool)
        (regs : List Nat) (e : GoErr),
      env.openFile tr bus = none →
      (OpenWithOptions env tr bus a (some ⟨f, some regs⟩)).1 =
        Except.error e →
      ∃ pre, (OpenWithOptions env tr bus a (some ⟨f, some regs⟩)).2 =
        pre ++ [Event.closeFile]) := by
  constructor
  · intro env tr bus a f regs Hopen Hio
    obtain ⟨c2, hc2⟩ := backupLoop_ok env a Hio regs
      (tr ++ [Event.openFile bus, selEvent f a]) ⟨f, [], a⟩
    refine ⟨c2, ?_⟩
    simp only [OpenWithOptions, OpenFileWithOptions, Hopen, Option.getD_none,
      List.length_nil] at hc2 ⊢
    simp [Conn.addr_eq, Hio, hc2]
  · intro env tr bus a f regs e Hopen he
    rcases haddr : Conn.addr ⟨f, [], 0⟩ env (tr ++ [Event.openFile bus]) a
      with ⟨aerr, tr2⟩
    cases aerr with
    | some e0 =>
      obtain ⟨tr3, hcl⟩ := closeLoop_shape ⟨f, [], 0⟩ env [] tr2
      refine ⟨tr3, ?_⟩
      simp [OpenWithOptions, OpenFileWithOptions, Hopen, haddr, Conn.Close,
        hcl]
    | none =>
      rcases hbl : backupLoop env tr2 ⟨f, [], a⟩ a regs with ⟨res, tr3⟩
      cases res with
      | ok c2 =>
        exfalso
        simp [OpenWithOptions, OpenFileWithOptions, Hopen, haddr, hbl] at he
      | error e0 =>
        obtain ⟨pre, hpre⟩ := backupLoop_error env a regs tr2 ⟨f, [], a⟩ e0
          tr3 hbl
        refine ⟨pre, ?_⟩
        simp [OpenWithOptions, OpenFileWithOptions, Hopen, haddr, hbl, hpre]

/-- Witness for C5: the success shape on `okEnv` with registers [3, 5],
and the close-at-the-end shape when the read of register 7 fails. -/
theorem openWithOptions_backup_reads_witness :
    (∃ c2 : Conn,
      OpenWithOptions okEnv [] 1 80 (some ⟨false, some [3, 5]⟩) =
        (Except.ok c2,
          [] ++ Event.openFile 1 :: selEvent false 80 ::
            readRegEvents false 80 [3, 5])) ∧
    (∃ pre,
      (OpenWithOptions (failReadEnv 7 (GoErr.osErr 9)) [] 1 80
          (some ⟨false, some [3, 7]⟩)).2 = pre ++ [Event.closeFile]) :=
  ⟨openWithOptions_backup_reads.1 okEnv [] 1 80 false [3, 5]
      (fun _ _ => rfl) (fun _ _ => rfl),
   openWithOptions_backup_reads.2 (failReadEnv 7 (GoErr.osErr 9)) [] 1 80
      false [3, 7] (GoErr.osErr 9) rfl rfl⟩

/-!
C10: an aborted open still restores the registers recorded so far.
-/

theorem readRegCmd_dataEq (r : Nat) : (readRegCmd r).data = [0] := rfl

theorem failReadEnv_open (rbad : Nat) (e : GoErr) (t : List Event)
    (b : Int) : (failReadEnv rbad e).openFile t b = none := rfl

theorem failReadEnv_closeF (rbad : Nat) (e : GoErr) (t : List Event) :
    (failReadEnv rbad e).closeFile t = none := rfl

theorem failReadEnv_sel (rbad : Nat) (e : GoErr) (f : Bool) (a : Nat)
    (t : List Event) :
    (failReadEnv rbad e).ioctl t (selCall f a) =
      { err := none, out := [0] } := by
  have hne : selCall f a ≠ transferCall (readRegCmd rbad) := by
    simp [selCall, transferCall]
  simp [failReadEnv, hne]

theorem failReadEnv_write (rbad : Nat) (e : GoErr) (t : List Event)
    (k v : Nat) :
    (failReadEnv rbad e).ioctl t (transferCall (writeRegCmd k v)) =
      { err := none, out := [0] } := by
  have hne : transferCall (writeRegCmd k v) ≠
      transferCall (readRegCmd rbad) := by
    simp [transferCall, writeRegCmd, readRegCmd, i2cSMBusWrite, i2cSMBusRead]
  simp [failReadEnv, hne]

theorem failReadEnv_read_ne (rbad : Nat) (e : GoErr) (t : List Event)
    (r : Nat) (hr : r ≠ rbad) :
    (failReadEnv rbad e).ioctl t (transferCall (readRegCmd r)) =
      { err := none, out := [0] } := by
  have hne : transferCall (readRegCmd r) ≠ transferCall (readRegCmd rbad) := by
    simp [transferCall, readRegCmd, hr]
  simp [failReadEnv, hne]

theorem failReadEnv_read_bad (rbad : Nat) (e : GoErr) (t : List Event) :
    (failReadEnv rbad e).ioctl t (transferCall (readRegCmd rbad)) =
      { err := some e, out := [] } := by
  simp [failReadEnv]

theorem readReg_failReadEnv_ok (c : Conn) (rbad : Nat) (e : GoErr)
    (tr : List Event) (a r : Nat) (hr : r ≠ rbad) :
    c.ReadReg (failReadEnv rbad e) tr a r =
      ((0, none),
        tr ++ [selEvent c.force a,
          Event.ioctl (transferCall (readRegCmd r))]) := by
  simp [Conn.ReadReg, Conn.addr_eq, failReadEnv_sel, smbusIoctl,
    failReadEnv_read_ne rbad e _ r hr, readRegCmd_dataEq, goCopy]

theorem readReg_failReadEnv_bad (c : Conn) (rbad : Nat) (e : GoErr)
    (tr : List Event) (a : Nat) :
    c.ReadReg (failReadEnv rbad e) tr a rbad =
      ((0, some e),
        tr ++ [selEvent c.force a,
          Event.ioctl (transferCall (readRegCmd rbad))]) := by
  simp [Conn.ReadReg, Conn.addr_eq, failReadEnv_sel, smbusIoctl,
    failReadEnv_read_bad, readRegCmd_dataEq, goCopy]

theorem backupLoop_failRead (a : Nat) (f : Bool) (rbad : Nat) (e : GoErr)
    (regs2 : List Nat) :
    ∀ (regs1 : List Nat) (tr : List Event) (acc : List (Nat × Nat)),
      rbad ∉ regs1 → regs1.Nodup →
      (∀ r ∈ regs1, (acc.any fun p => p.1 == r) = false) →
      backupLoop (failReadEnv rbad e) tr ⟨f, acc, a⟩ a
          (regs1 ++ rbad :: regs2) =
        (Except.error e,
          tr ++ readRegEvents f a regs1 ++ selEvent f a ::
            Event.ioctl (transferCall (readRegCmd rbad)) ::
            (restoreEvents f a (acc ++ regs1.map fun r => (r, 0)) ++
              [Event.closeFile]))
  | [], tr, acc, _, _, _ => by
    have hrr := readReg_failReadEnv_bad ⟨f, acc, a⟩ rbad e tr a
    have hcl := closeLoop_ok ⟨f, acc, a⟩ (failReadEnv rbad e)
      (fun t => by rw [failReadEnv_sel])
      (fun t k v => by rw [failReadEnv_write]) acc
      (tr ++ [selEvent f a, Event.ioctl (transferCall (readRegCmd rbad))])
    simp only [List.nil_append, backupLoop, hrr, Conn.Close]
    rw [hcl]
    simp [restoreEvents, readRegEvents]
  | r :: rest, tr, acc, h1, h2, h3 => by
    have hr : r ≠ rbad := fun hEq => h1 (by simp [hEq])
    have hins : mapInsert acc r 0 = acc ++ [(r, 0)] := by
      simp [mapInsert, h3 r (by simp)]
    have hrr := readReg_failReadEnv_ok ⟨f, acc, a⟩ rbad e tr a r hr
    have hrec := backupLoop_failRead a f rbad e regs2 rest
      (tr ++ [selEvent f a, Event.ioctl (transferCall (readRegCmd r))])
      (acc ++ [(r, 0)])
      (fun hm => h1 (List.mem_cons_of_mem r hm)) h2.of_cons
      (by
        intro r2 hr2
        have ha := h3 r2 (List.mem_cons_of_mem r hr2)
        have hrr2 : r ≠ r2 := fun hEq => (List.nodup_cons.mp h2).1 (hEq ▸ hr2)
        simp [List.any_append, ha, beq_eq_false_iff_ne.mpr hrr2])
    simp only [List.cons_append, backupLoop, hrr]
    simp [hins, hrec, readRegEvents, restoreEvents]

/-- C10: when OpenWithOptions aborts because the backup read of register
`rbad` fails partway through the list, the internal Close first performs
one restore WriteReg (select + byte-data write transfer) per register
already recorded, before the handle-close event — the aborted open still
produces writes on the bus. -/
theorem aborted_open_restores_recorded (tr : List Event) (bus : Int)
    (a : Nat) (f : Bool) (regs1 regs2 : List Nat) (rbad : Nat) (e : GoErr)
    (h1 : rbad ∉ regs1) (h2 : regs1.Nodup) :
    OpenWithOptions (failReadEnv rbad e) tr bus a
        (some ⟨f, some (regs1 ++ rbad :: regs2)⟩) =
      (Except.error e,
        tr ++ Event.openFile bus :: selEvent f a ::
          (readRegEvents f a regs1 ++ selEvent f a ::
            Event.ioctl (transferCall (readRegCmd rbad)) ::
            (restoreEvents f a (regs1.map fun r => (r, 0)) ++
              [Event.closeFile]))) := by
  have hbl := backupLoop_failRead a f rbad e regs2 regs1
    (tr ++ [Event.openFile bus, selEvent f a]) [] h1 h2 (by simp)
  simp only [List.nil_append] at hbl
  simp [OpenWithOptions, OpenFileWithOptions, failReadEnv_open,
    Conn.addr_eq, failReadEnv_sel, hbl]

/-- Witness for C10: the backup reads of registers 3 and 5 succeed, the
read of register 7 fails, and the aborted open's trace shows the restore
writes of 3 and 5 before the handle close. -/
theorem aborted_open_restores_recorded_witness :
    (7 : Nat) ∉ ([3, 5] : List Nat) ∧ ([3, 5] : List Nat).Nodup ∧
    OpenWithOptions (failReadEnv 7 (GoErr.osErr 9)) [] 1 80
        (some ⟨false, some ([3, 5] ++ 7 :: [2])⟩) =
      (Except.error (GoErr.osErr 9),
        [] ++ Event.openFile 1 :: selEvent false 80 ::
          (readRegEvents false 80 [3, 5] ++ selEvent false 80 ::
            Event.ioctl (transferCall (readRegCmd 7)) ::
            (restoreEvents false 80 ([3, 5].map fun r => (r, 0)) ++
              [Event.closeFile]))) :=
  ⟨by decide, by decide,
   aborted_open_restores_recorded [] 1 80 false [3, 5] [2] 7 (GoErr.osErr 9)
     (by decide) (by decide)⟩

/-!
C9: the legacy implementation versus the options-based one.
-/

/-- C9 counterexample: the two implementations do **not** have the same
resource handling on every error path. On an oracle where the device file
opens but the address-select ioctl fails, the legacy Open returns without
closing the file (the trace has no close event), while the options-based
Open closes the handle — so the two traces differ. -/
theorem legacy_open_leak_cex :
    Legacy.Open selFailEnv [] 1 80 =
      (Except.error (GoErr.osErr 5), [Event.openFile 1, selEvent false 80]) ∧
    Open selFailEnv [] 1 80 =
      (Except.error (GoErr.osErr 5),
        [Event.openFile 1, selEvent false 80, Event.closeFile]) ∧
    (Legacy.Open selFailEnv [] 1 80).2 ≠ (Open selFailEnv [] 1 80).2 := by
  refine ⟨rfl, rfl, ?_⟩
  decide

/-- C9 (amended): the legacy implementation behaves identically to the
options-based implementation with Force = false and an empty backup list —
ReadReg, WriteReg, ReadWord, WriteWord and Close produce the same results
and the same ioctl sequences, and Open agrees on the open-failure path and
on the success path — **except** on the address-select-failure path of
Open, where both return the select error but the legacy Open leaks the
file handle while the options-based Open closes it before returning. -/
theorem legacy_matches_options :
    (∀ (env : Env) (tr : List Event) (a reg v w b : Nat),
      Legacy.Conn.ReadReg ⟨⟩ env tr a reg =
        Conn.ReadReg ⟨false, [], b⟩ env tr a reg ∧
      Legacy.Conn.WriteReg ⟨⟩ env tr a reg v =
        Conn.WriteReg ⟨false, [], b⟩ env tr a reg v ∧
      Legacy.Conn.ReadWord ⟨⟩ env tr a reg =
        Conn.ReadWord ⟨false, [], b⟩ env tr a reg ∧
      Legacy.Conn.WriteWord ⟨⟩ env tr a reg w =
        Conn.WriteWord ⟨false, [], b⟩ env tr a reg w ∧
      Legacy.Conn.Close ⟨⟩ env tr = Conn.Close ⟨false, [], b⟩ env tr) ∧
    (∀ (env : Env) (tr : List Event) (bus : Int) (a : Nat),
      (∀ e, env.openFile tr bus = some e →
        Legacy.Open env tr bus a =
          (Except.error e, tr ++ [Event.openFile bus]) ∧
        Open env tr bus a = (Except.error e, tr ++ [Event.openFile bus])) ∧
      (env.openFile tr bus = none →
        ((env.ioctl (tr ++ [Event.openFile bus]) (selCall false a)).err =
            none →
          Legacy.Open env tr bus a =
            (Except.ok ⟨⟩, tr ++ [Event.openFile bus, selEvent false a]) ∧
          Open env tr bus a =
            (Except.ok ⟨false, [], a⟩,
              tr ++ [Event.openFile bus, selEvent false a])) ∧
        (∀ e, (env.ioctl (tr ++ [Event.openFile bus])
            (selCall false a)).err = some e →
          Legacy.Open env tr bus a =
            (Except.error e, tr ++ [Event.openFile bus, selEvent false a]) ∧
          Open env tr bus a =
            (Except.error e,
              tr ++ [Event.openFile bus, selEvent false a,
                Event.closeFile])))) := by
  constructor
  · intro env tr a reg v w b
    refine ⟨?_, ?_, ?_, ?_, ?_⟩ <;>
      simp [Legacy.Conn.ReadReg, Legacy.Conn.WriteReg, Legacy.Conn.ReadWord,
        Legacy.Conn.WriteWord, Legacy.Conn.Close, Legacy.Conn.addr,
        Conn.ReadReg, Conn.WriteReg, Conn.ReadWord, Conn.WriteWord,
        Conn.Close, Conn.closeLoop, Conn.addr]
  · intro env tr bus a
    refine ⟨?_, ?_⟩
    · intro e he
      constructor <;>
        simp [Legacy.Open, Open, OpenWithOptions, OpenFileWithOptions, he]
    · intro hopen
      constructor
      · intro hsel
        have hsel2 : (env.ioctl (tr ++ [Event.openFile bus])
            ⟨i2cSlave, IoctlArg.addr a⟩).err = none := hsel
        constructor
        · simp [Legacy.Open, hopen, hsel2, selEvent, selCall]
        · simp [Open, OpenWithOptions, OpenFileWithOptions, hopen,
            Conn.addr_eq, hsel, backupLoop]
      · intro e hsel
        have hsel2 : (env.ioctl (tr ++ [Event.openFile bus])
            ⟨i2cSlave, IoctlArg.addr a⟩).err = some e := hsel
        constructor
        · simp [Legacy.Open, hopen, hsel2, selEvent, selCall]
        · simp [Open, OpenWithOptions, OpenFileWithOptions, hopen,
            Conn.addr_eq, hsel, Conn.Close, Conn.closeLoop, doCloseFile]

/-- Witness for C9 (amended): the operation equivalences at a concrete
oracle, the agreeing success path on `okEnv`, and the diverging
select-failure path on `selFailEnv`. -/
theorem legacy_matches_options_witness :
    Legacy.Conn.ReadReg ⟨⟩ okEnv [] 80 16 =
      Conn.ReadReg ⟨false, [], 0⟩ okEnv [] 80 16 ∧
    (Legacy.Open okEnv [] 1 80 =
      (Except.ok ⟨⟩, [Event.openFile 1, selEvent false 80]) ∧
     Open okEnv [] 1 80 =
      (Except.ok ⟨false, [], 80⟩, [Event.openFile 1, selEvent false 80])) ∧
    (Legacy.Open selFailEnv [] 1 80 =
      (Except.error (GoErr.osErr 5),
        [Event.openFile 1, selEvent false 80]) ∧
     Open selFailEnv [] 1 80 =
      (Except.error (GoErr.osErr 5),
        [Event.openFile 1, selEvent false 80, Event.closeFile])) :=
  ⟨(legacy_matches_options.1 okEnv [] 80 16 0 0 0).1,
   ((legacy_matches_options.2 okEnv [] 1 80).2 rfl).1 rfl,
   ((legacy_matches_options.2 selFailEnv [] 1 80).2 rfl).2
     (GoErr.osErr 5) rfl⟩

end Smbus
